import Mathlib

/-!
Verification of the task service of a multi-tenant todo backend
(`backend/services/task_service.py`, `backend/services/import_service.py`,
`backend/schemas/requests.py`).

The Python services are embedded shallowly: the relational task store is a
`List Models.Task` in natural row order, SQL `WHERE` clauses become `List.filter`
predicates, SQL `ORDER BY` becomes a stable sort (ties keep natural row
order), and `raise`/`rollback` become `Except`-valued results that return
the pre-call store.  Strings are Lean `String`s, and Python's `str.split`,
`str.strip`, `str.lower` and substring tests are re-implemented over
`List Char` below so that all definitions evaluate by kernel reduction.

The `Task` row type itself follows the data model of the design document
(`models.py` is not among the sources; only its fields, defaults and the
store-refreshed `updated_at` timestamp are taken from the spec's §3 data
model).  Timestamps are plain integers, UUID owner keys are naturals.
-/

/-- Python's `s.split(sep)` on a single-character separator: splits into the
(possibly empty) pieces between occurrences of `sep`. -/
def pySplitAux (sep : Char) : List Char → List Char → List String
  | [], acc => [String.mk acc.reverse]
  | c :: rest, acc =>
    if c = sep then String.mk acc.reverse :: pySplitAux sep rest []
    else pySplitAux sep rest (c :: acc)

def pySplit (s : String) (sep : Char) : List String :=
  pySplitAux sep s.data []

/-- Python's `s.strip()`: drop leading and trailing whitespace. -/
def pyStrip (s : String) : String :=
  String.mk ((s.data.dropWhile Char.isWhitespace).reverse.dropWhile
    Char.isWhitespace).reverse

/-- Python's `s.lower()` (ASCII case folding suffices for the enum strings
the service compares). -/
def pyLower (s : String) : String :=
  String.mk (s.data.map Char.toLower)

/-- `pat` occurs as a contiguous run inside `hay`. -/
def containsSub (pat : List Char) : List Char → Bool
  | [] => pat.isEmpty
  | a :: rest => pat.isPrefixOf (a :: rest) || containsSub pat rest

/-- SQL `hay LIKE '%pat%'` (after both sides are lower-cased this is
`ILIKE`): substring containment. -/
def pyContains (hay pat : String) : Bool :=
  containsSub pat.data hay.data

/-- One row of the task table (spec §3; `models.py` is not among the
sources, so fields and defaults follow the spec's data model). -/
structure Models.Task where
  id : Nat
  user_id : Nat
  title : String
  description : Option String
  priority : String
  due_date : Option Int
  tags : List String
  completed : Bool
  created_at : Int
  updated_at : Int
deriving DecidableEq, Repr

/-- The task table, in natural row order. -/
abbrev Store := List Models.Task

namespace TaskService

/-- `get_task_by_id`: `SELECT ... WHERE Task.id == task_id AND
Task.user_id == user_id`, first match (`.first()`). -/
def get_task_by_id (db : Store) (user_id : Nat) (task_id : Nat) : Option Models.Task :=
  db.find? (fun t => t.id == task_id && t.user_id == user_id)

/-- The keyword arguments of `get_tasks`, with their Python defaults.
`due_date` is the result of the route's string already passed through
`datetime.fromisoformat`: `none` = parameter absent, `some none` =
present but malformed (the code silently ignores the filter then),
`some (some d)` = parsed timestamp `d`. -/
structure QueryParams where
  status : Option String := none
  priority : Option String := none
  due_date : Option (Option Int) := none
  tags : Option String := none
  search : Option String := none
  sort : Option String := some "created"
  sort_direction : Option String := some "desc"
  page : Nat := 1
  limit : Nat := 20
deriving DecidableEq, Repr

/-- The status filter of `get_tasks`: applied only when `status` is truthy
and its lower-case form is not `"all"`; `"pending"`/`"completed"` compare
lower-cased; any other value adds no clause. -/
def statusFilter (status : Option String) (t : Models.Task) : Bool :=
  match status with
  | none => true
  | some st =>
    if st != "" && pyLower st != "all" then
      if pyLower st == "pending" then !t.completed
      else if pyLower st == "completed" then t.completed
      else true
    else true

/-- The priority filter: exact match whenever the parameter is not `None`. -/
def priorityFilter (priority : Option String) (t : Models.Task) : Bool :=
  match priority with
  | none => true
  | some p => t.priority == p

/-- The due-date filter: equality on the parsed date; a malformed date
string (`some none`) is silently ignored. -/
def dueDateFilter (due_date : Option (Option Int)) (t : Models.Task) : Bool :=
  match due_date with
  | none => true
  | some none => true
  | some (some d) => t.due_date == some d

/-- The tags filter: the comma-separated string is split and each stripped,
non-empty piece adds one `WHERE Task.tags.any(tag)` clause; successive
`where` calls conjoin, so the task must contain every such tag. -/
def tagsFilter (tags : Option String) (t : Models.Task) : Bool :=
  match tags with
  | none => true
  | some ts =>
    (pySplit ts ',').all (fun tag =>
      pyStrip tag == "" || t.tags.contains (pyStrip tag))

/-- The search filter: applied only when `search` strips to a non-empty
term; case-insensitive substring match on title OR description (a NULL
description matches nothing, as in SQL). -/
def searchFilter (search : Option String) (t : Models.Task) : Bool :=
  match search with
  | none => true
  | some q =>
    if pyStrip q != "" then
      pyContains (pyLower t.title) (pyLower (pyStrip q)) ||
        (match t.description with
         | some d => pyContains (pyLower d) (pyLower (pyStrip q))
         | none => false)
    else true

/-- The owner-scoped, fully filtered set of `get_tasks`, before counting,
sorting and pagination (lines 113–155 of `task_service.py`). -/
def filteredTasks (db : Store) (user_id : Nat) (p : QueryParams) : List Models.Task :=
  db.filter (fun t =>
    t.user_id == user_id && statusFilter p.status t && priorityFilter p.priority t &&
      dueDateFilter p.due_date t && tagsFilter p.tags t && searchFilter p.search t)

/-- The `CASE` rank used by the priority sort: high=1, medium=2, low=3.  A
`CASE` with no `ELSE` yields NULL for any other string; the store sorts
NULL before every value ascending and after every value descending, which
rank 0 reproduces. -/
def priorityRank (p : String) : Nat :=
  if p == "high" then 1 else if p == "medium" then 2 else if p == "low" then 3 else 0

/-- `ORDER BY due_date ASC NULLS LAST`. -/
def dueLeAsc : Option Int → Option Int → Bool
  | none, none => true
  | none, some _ => false
  | some _, none => true
  | some a, some b => a ≤ b

/-- `ORDER BY due_date DESC NULLS LAST`. -/
def dueLeDesc : Option Int → Option Int → Bool
  | none, none => true
  | none, some _ => false
  | some _, none => true
  | some a, some b => b ≤ a

/-- Binary-collation string comparison (code-point lexicographic). -/
def charListLe : List Char → List Char → Bool
  | [], _ => true
  | _ :: _, [] => false
  | a :: as, b :: bs => if a = b then charListLe as bs else decide (a < b)

def strLe (a b : String) : Bool :=
  charListLe a.data b.data

/-- Insert `a` in front of the first element it sorts weakly before;
stable: an inserted element goes before later equal keys. -/
def insertLe (le : Models.Task → Models.Task → Bool) (a : Models.Task) : List Models.Task → List Models.Task
  | [] => [a]
  | b :: bs => if le a b then a :: b :: bs else b :: insertLe le a bs

/-- Stable sort (ties keep natural row order), the observable contract of
the store's `ORDER BY` on a single key. -/
def sortByLe (le : Models.Task → Models.Task → Bool) : List Models.Task → List Models.Task
  | [] => []
  | a :: as => insertLe le a (sortByLe le as)

/-- The weak order chosen by the `sort`/`sort_direction` dispatch of
`get_tasks` (lines 161–192): `title`, `updated`, `priority` (by rank),
`due_date` (nulls last), and anything else by `created_at`; any
`sort_direction` other than `"asc"` takes the descending branch. -/
def taskLe (sort : Option String) (sort_direction : Option String)
    (a b : Models.Task) : Bool :=
  let asc := sort_direction == some "asc"
  if sort == some "title" then
    if asc then strLe a.title b.title else strLe b.title a.title
  else if sort == some "updated" then
    if asc then decide (a.updated_at ≤ b.updated_at) else decide (b.updated_at ≤ a.updated_at)
  else if sort == some "priority" then
    if asc then decide (priorityRank a.priority ≤ priorityRank b.priority)
    else decide (priorityRank b.priority ≤ priorityRank a.priority)
  else if sort == some "due_date" then
    if asc then dueLeAsc a.due_date b.due_date else dueLeDesc a.due_date b.due_date
  else
    if asc then decide (a.created_at ≤ b.created_at) else decide (b.created_at ≤ a.created_at)

/-- `get_tasks`: owner-scoped filtering, `total_count` over the filtered
set before pagination, ordering, then `offset((page-1)*limit).limit(limit)`.
Returns `(tasks, total_count)`. -/
def get_tasks (db : Store) (user_id : Nat) (p : QueryParams) :
    List Models.Task × Nat :=
  let filtered := filteredTasks db user_id p
  let total_count := filtered.length
  let sorted := sortByLe (taskLe p.sort p.sort_direction) filtered
  (((sorted.drop ((p.page - 1) * p.limit)).take p.limit), total_count)

/-- `create_task`: the validation chain of lines 47–61, then the new row is
appended to the table.  `now` is `datetime.utcnow()` at the call; `newId`
is the store-assigned autoincrement identifier. -/
def create_task (db : Store) (user_id : Nat) (title : String)
    (description : Option String) (priority : String) (due_date : Option Int)
    (tags : Option (List String)) (now : Int) (newId : Nat) :
    Except String (Models.Task × Store) :=
  if title == "" || pyStrip title == "" then
    .error "Title is required"
  else if 200 < (pyStrip title).length then
    .error "Title must be 200 characters or less"
  else if (match description with
           | some d => d != "" && decide (1000 < d.length)
           | none => false) then
    .error "Description must be 1000 characters or less"
  else if !(["low", "medium", "high"].contains priority) then
    .error "Priority must be one of: low, medium, high"
  else if (match due_date with
           | some d => decide (d < now)
           | none => false) then
    .error "Due date cannot be in the past"
  else
    let task : Models.Task :=
      { id := newId, user_id := user_id, title := pyStrip title,
        description := description, priority := priority, due_date := due_date,
        tags := tags.getD [], completed := false, created_at := now,
        updated_at := now }
    .ok (task, db ++ [task])

/-- Replace the first row matching `(task_id, user_id)` by `t'` (the commit
of an in-session mutation of the object found by `get_task_by_id`). -/
def commitTask (db : Store) (task_id user_id : Nat) (t' : Models.Task) : Store :=
  match db with
  | [] => []
  | t :: rest =>
    if t.id == task_id && t.user_id == user_id then t' :: rest
    else t :: commitTask rest task_id user_id t'

/-- Remove the first row matching `(task_id, user_id)` (`db.delete(task)`). -/
def removeFirst (db : Store) (task_id user_id : Nat) : Store :=
  match db with
  | [] => []
  | t :: rest =>
    if t.id == task_id && t.user_id == user_id then rest
    else t :: removeFirst rest task_id user_id

/-- `update_task`, finished: `tags` and `completed` are assigned without
any validation, then the mutation is committed. -/
def update_task_rest (db : Store) (user_id : Nat) (task_id : Nat)
    (task : Models.Task) (tags : Option (List String)) (completed : Option Bool)
    (now : Int) : Except String (Option Models.Task × Store) :=
  let t1 := match tags with
    | some tg => { task with tags := tg }
    | none => task
  let t2 := match completed with
    | some c => { t1 with completed := c }
    | none => t1
  let t3 := { t2 with updated_at := now }
  .ok (some t3, commitTask db task_id user_id t3)

/-- `update_task`, continued: the `due_date` step. -/
def update_task_due (db : Store) (user_id : Nat) (task_id : Nat)
    (task : Models.Task) (due_date : Option Int) (tags : Option (List String))
    (completed : Option Bool) (now : Int) :
    Except String (Option Models.Task × Store) :=
  match due_date with
  | some d =>
    if d < now then .error "Due date cannot be in the past"
    else update_task_rest db user_id task_id { task with due_date := some d }
      tags completed now
  | none => update_task_rest db user_id task_id task tags completed now

/-- `update_task`, continued: the `priority` step. -/
def update_task_prio (db : Store) (user_id : Nat) (task_id : Nat)
    (task : Models.Task) (priority : Option String) (due_date : Option Int)
    (tags : Option (List String)) (completed : Option Bool) (now : Int) :
    Except String (Option Models.Task × Store) :=
  match priority with
  | some p =>
    if !(["low", "medium", "high"].contains p) then
      .error "Priority must be one of: low, medium, high"
    else update_task_due db user_id task_id { task with priority := p }
      due_date tags completed now
  | none => update_task_due db user_id task_id task due_date tags completed now

/-- `update_task`, continued: the `description` step. -/
def update_task_desc (db : Store) (user_id : Nat) (task_id : Nat)
    (task : Models.Task) (description : Option String) (priority : Option String)
    (due_date : Option Int) (tags : Option (List String))
    (completed : Option Bool) (now : Int) :
    Except String (Option Models.Task × Store) :=
  match description with
  | some d =>
    if 1000 < d.length then .error "Description must be 1000 characters or less"
    else update_task_prio db user_id task_id { task with description := some d }
      priority due_date tags completed now
  | none => update_task_prio db user_id task_id task priority due_date tags
      completed now

/-- `update_task`: ownership lookup first (`None` when the pair does not
resolve), then per-field validation and assignment in source order; a
validation failure raises before commit, so the store is unchanged then.
The store refreshes `updated_at` on commit. -/
def update_task (db : Store) (user_id : Nat) (task_id : Nat)
    (title : Option String) (description : Option String)
    (priority : Option String) (due_date : Option Int)
    (tags : Option (List String)) (completed : Option Bool) (now : Int) :
    Except String (Option Models.Task × Store) :=
  match get_task_by_id db user_id task_id with
  | none => .ok (none, db)
  | some task0 =>
    match title with
    | some ttl =>
      if ttl == "" || pyStrip ttl == "" then .error "Title is required"
      else if 200 < (pyStrip ttl).length then
        .error "Title must be 200 characters or less"
      else update_task_desc db user_id task_id { task0 with title := pyStrip ttl }
        description priority due_date tags completed now
    | none => update_task_desc db user_id task_id task0
        description priority due_date tags completed now

/-- `delete_task`: ownership lookup, then hard removal; `False` and an
unchanged store when the pair does not resolve. -/
def delete_task (db : Store) (user_id : Nat) (task_id : Nat) : Bool × Store :=
  match get_task_by_id db user_id task_id with
  | none => (false, db)
  | some _ => (true, removeFirst db task_id user_id)

/-- `toggle_complete`: ownership lookup, then the `completed` field is
assigned with no validation at all and the row committed (the store
refreshes `updated_at`). -/
def toggle_complete (db : Store) (user_id : Nat) (task_id : Nat)
    (completed : Bool) (now : Int) : Option Models.Task × Store :=
  match get_task_by_id db user_id task_id with
  | none => (none, db)
  | some t =>
    let t' := { t with completed := completed, updated_at := now }
    (some t', commitTask db task_id user_id t')

/-- The result of `get_statistics`. -/
structure Stats where
  total : Nat
  completed : Nat
  pending : Nat
  overdue : Nat
deriving DecidableEq, Repr

/-- `get_statistics`: loads the full owner-scoped set; `pending` is
`total - completed`; `overdue` counts rows with a due date strictly before
`now` that are not completed. -/
def get_statistics (db : Store) (user_id : Nat) (now : Int) : Stats :=
  let all_tasks := db.filter (fun t => t.user_id == user_id)
  let total := all_tasks.length
  let completed := all_tasks.countP (fun t => t.completed)
  { total := total, completed := completed, pending := total - completed,
    overdue := all_tasks.countP (fun t =>
      (match t.due_date with
       | some d => decide (d < now)
       | none => false) && !t.completed) }

/-- The error kinds a bulk operation can raise: the per-id not-found
`Exception` of the loop body, or the `ValueError` of an invalid priority. -/
inductive BulkError where
  | notFound (task_id : Nat)
  | invalidPriority
deriving DecidableEq, Repr

/-- The loop of `bulk_delete`: each id is resolved against the current
session state; an unresolved id raises and `db.rollback()` restores the
pre-call store `orig`; reaching the end of the list commits. -/
def bulk_delete_go (orig : Store) (user_id : Nat) :
    Store → List Nat → Nat → Store × Except BulkError Nat
  | cur, [], n => (cur, .ok n)
  | cur, task_id :: rest, n =>
    match get_task_by_id cur user_id task_id with
    | none => (orig, .error (.notFound task_id))
    | some _ =>
      bulk_delete_go orig user_id (removeFirst cur task_id user_id) rest (n + 1)

/-- `bulk_delete`: all-or-nothing deletion over a list of ids. -/
def bulk_delete (db : Store) (user_id : Nat) (task_ids : List Nat) :
    Store × Except BulkError Nat :=
  bulk_delete_go db user_id db task_ids 0

/-- The loop of `bulk_complete`: sets `completed = True` on each resolved
row; an unresolved id raises and rollback restores the pre-call store. -/
def bulk_complete_go (orig : Store) (user_id : Nat) (now : Int) :
    Store → List Nat → Nat → Store × Except BulkError Nat
  | cur, [], n => (cur, .ok n)
  | cur, task_id :: rest, n =>
    match get_task_by_id cur user_id task_id with
    | none => (orig, .error (.notFound task_id))
    | some t =>
      bulk_complete_go orig user_id now
        (commitTask cur task_id user_id { t with completed := true, updated_at := now })
        rest (n + 1)

/-- `bulk_complete`: all-or-nothing completion over a list of ids. -/
def bulk_complete (db : Store) (user_id : Nat) (task_ids : List Nat)
    (now : Int) : Store × Except BulkError Nat :=
  bulk_complete_go db user_id now db task_ids 0

/-- The loop of `bulk_pending`: sets `completed = False` on each resolved
row; an unresolved id raises and rollback restores the pre-call store. -/
def bulk_pending_go (orig : Store) (user_id : Nat) (now : Int) :
    Store → List Nat → Nat → Store × Except BulkError Nat
  | cur, [], n => (cur, .ok n)
  | cur, task_id :: rest, n =>
    match get_task_by_id cur user_id task_id with
    | none => (orig, .error (.notFound task_id))
    | some t =>
      bulk_pending_go orig user_id now
        (commitTask cur task_id user_id { t with completed := false, updated_at := now })
        rest (n + 1)

/-- `bulk_pending`: all-or-nothing un-completion over a list of ids. -/
def bulk_pending (db : Store) (user_id : Nat) (task_ids : List Nat)
    (now : Int) : Store × Except BulkError Nat :=
  bulk_pending_go db user_id now db task_ids 0

/-- The loop of `bulk_priority_change`: sets the priority on each resolved
row; an unresolved id raises and rollback restores the pre-call store. -/
def bulk_priority_go (orig : Store) (user_id : Nat) (priority : String)
    (now : Int) : Store → List Nat → Nat → Store × Except BulkError Nat
  | cur, [], n => (cur, .ok n)
  | cur, task_id :: rest, n =>
    match get_task_by_id cur user_id task_id with
    | none => (orig, .error (.notFound task_id))
    | some t =>
      bulk_priority_go orig user_id priority now
        (commitTask cur task_id user_id { t with priority := priority, updated_at := now })
        rest (n + 1)

/-- `bulk_priority_change`: validates the priority value first
(`ValueError`, before any row is touched), then applies the all-or-nothing
loop. -/
def bulk_priority_change (db : Store) (user_id : Nat) (task_ids : List Nat)
    (priority : String) (now : Int) : Store × Except BulkError Nat :=
  if !(["low", "medium", "high"].contains priority) then
    (db, .error .invalidPriority)
  else
    bulk_priority_go db user_id priority now db task_ids 0

end TaskService

/-- `CreateTaskRequest.validate_tags` (`schemas/requests.py`): at most 10
tags, each at most 50 characters; the first violation raises. -/
def CreateTaskRequest.validate_tags (tags : List String) :
    Except String (List String) :=
  if 10 < tags.length then .error "Maximum 10 tags allowed"
  else match tags.find? (fun tag => 50 < tag.length) with
    | some _ => .error "Each tag must be 50 characters or less"
    | none => .ok tags

/-- `UpdateTaskRequest.validate_tags` (`schemas/requests.py`): same bounds,
applied only when a tags value is provided. -/
def UpdateTaskRequest.validate_tags (tags : Option (List String)) :
    Except String (Option (List String)) :=
  match tags with
  | none => .ok none
  | some v =>
    if 10 < v.length then .error "Maximum 10 tags allowed"
    else match v.find? (fun tag => 50 < tag.length) with
      | some _ => .error "Each tag must be 50 characters or less"
      | none => .ok (some v)

namespace ImportService

/-- A value found under the `completed` key of an imported record:
a JSON boolean, a string, or absent (`task_data.get('completed', False)`
then defaults to the boolean `False`). -/
inductive ImportValue where
  | bool (b : Bool)
  | str (s : String)
  | missing
deriving DecidableEq, Repr

/-- A value found under the `tags` key: a comma-separated string or an
array of strings. -/
inductive ImportTags where
  | str (s : String)
  | list (l : List String)
deriving DecidableEq, Repr

/-- One untrusted imported record, with the fields and `dict.get` defaults
`validate_imported_task` reads. -/
structure ImportRecord where
  title : String := ""
  description : String := ""
  priority : String := "medium"
  due_date : Option String := none
  tags : Option ImportTags := none
  completed : ImportValue := .missing
deriving DecidableEq, Repr

/-- Truthiness of a tags value (`if tags:`). -/
def ImportTags.truthy : ImportTags → Bool
  | .str s => s != ""
  | .list l => !l.isEmpty

/-- The tag list after the string-to-list conversion step. -/
def ImportTags.toList : ImportTags → List String
  | .str s => ((pySplit s ',').map pyStrip).filter (fun tag => tag != "")
  | .list l => l

/-- The final `completed` check of `validate_imported_task`:
`isinstance(completed, bool)` or membership in the fixed string list
(the default for a missing key is the boolean `False`). -/
def validate_completed (r : ImportRecord) : Bool × String :=
  match r.completed with
  | .missing => (true, "")
  | .bool _ => (true, "")
  | .str s =>
    if ["true", "false", "True", "False", "1", "0"].contains s then (true, "")
    else (false, "Invalid completed value (must be boolean)")

/-- `validate_imported_task` (`import_service.py` lines 121–186).
`parseOk d` stands for `_parse_datetime(d) is not None` — the
`datetime.fromisoformat` library call is an external collaborator, so the
validator is parameterised over it.  Returns `(is_valid, error_message)`.
The `completed` check accepts a boolean or exactly one of the strings
`'true','false','True','False','1','0'`. -/
def validate_imported_task (parseOk : String → Bool) (r : ImportRecord) :
    Bool × String :=
  let title := pyStrip r.title
  if title == "" then (false, "Title is required")
  else if 200 < title.length then (false, "Title must be 200 characters or less")
  else if r.description != "" && decide (1000 < r.description.length) then
    (false, "Description must be 1000 characters or less")
  else if !(["low", "medium", "high"].contains (pyLower r.priority)) then
    (false, "Invalid priority (must be low, medium, or high)")
  else if (match r.due_date with
           | some d => d != "" && !parseOk d
           | none => false) then
    (false, "Invalid due_date format (expected ISO 8601)")
  else
    match r.tags with
    | some tv =>
      if tv.truthy then
        let tl := tv.toList
        if 10 < tl.length then (false, "Maximum 10 tags allowed")
        else match tl.find? (fun tag => 50 < tag.length) with
          | some _ => (false, "Tag exceeds 50 characters")
          | none => validate_completed r
      else validate_completed r
    | none => validate_completed r

/-- `_parse_boolean` (`import_service.py` lines 228–244): a boolean is
returned unchanged; a string maps to `True` exactly when its lower-case
form is `'true'`, `'1'` or `'yes'`; anything else is `False`. -/
def parse_boolean : ImportValue → Bool
  | .bool b => b
  | .str s => ["true", "1", "yes"].contains (pyLower s)
  | .missing => false

end ImportService


/-- The stripped, non-empty entries of a comma-separated tags filter:
exactly the tags for which the query adds a `WHERE` clause. -/
def TaskService.filterTagList (ts : String) : List String :=
  ((pySplit ts ',').map pyStrip).filter (fun tag => tag != "")

/-! ## Concrete stores used by the closed counterexample and witness
theorems -/

/-- A demonstration row: identifier `i`, owner `uid`, the given priority,
tags, completion flag and due date; `created_at`/`updated_at` equal `i`. -/
def mkDemoTask (i uid : Nat) (prio : String) (tags : List String)
    (completed : Bool) (due : Option Int) : Models.Task :=
  { id := i, user_id := uid, title := "t", description := none,
    priority := prio, due_date := due, tags := tags, completed := completed,
    created_at := (i : Int), updated_at := (i : Int) }

/-- A task tagged `work`, owned by user 7. -/
def c1task : Models.Task := mkDemoTask 1 7 "medium" ["work"] false none

def c1db : Store := [c1task]

/-- Owner 7 with priorities `[high, medium, low, high]` (the store of the
spec's §8 concrete scenario). -/
def c4db : Store :=
  [mkDemoTask 1 7 "high" [] false none, mkDemoTask 2 7 "medium" [] false none,
   mkDemoTask 3 7 "low" [] false none, mkDemoTask 4 7 "high" [] false none]

/-- Eleven tags: one more than the documented bound. -/
def bigTags : List String :=
  ["a", "b", "c", "d", "e", "f", "g", "h", "i", "j", "k"]

/-- A 51-character tag: one character over the documented bound. -/
def longTag : String :=
  "aaaaaaaaaaaaaaaaaaaaaaaaaaaaaaaaaaaaaaaaaaaaaaaaaaa"

/-- A store holding a single task owned by user 1. -/
def demoDb : Store := [mkDemoTask 1 1 "high" [] false none]


/-! ## Helper lemmas about the embedded operations -/

namespace TaskService

lemma length_insertLe (le : Models.Task → Models.Task → Bool) (a : Models.Task)
    (l : List Models.Task) : (insertLe le a l).length = l.length + 1 := by
  induction l with
  | nil => rfl
  | cons b bs ih =>
    simp only [insertLe]
    split
    · simp
    · simp [ih]

lemma length_sortByLe (le : Models.Task → Models.Task → Bool)
    (l : List Models.Task) : (sortByLe le l).length = l.length := by
  induction l with
  | nil => rfl
  | cons a as ih => simp [sortByLe, length_insertLe, ih]

lemma mem_insertLe {le : Models.Task → Models.Task → Bool} {a x : Models.Task}
    {l : List Models.Task} : x ∈ insertLe le a l ↔ x = a ∨ x ∈ l := by
  induction l with
  | nil => simp [insertLe]
  | cons b bs ih =>
    simp only [insertLe]
    split
    · simp [List.mem_cons]
    · simp [List.mem_cons, ih]
      tauto

lemma mem_sortByLe {le : Models.Task → Models.Task → Bool} {x : Models.Task}
    {l : List Models.Task} : x ∈ sortByLe le l ↔ x ∈ l := by
  induction l with
  | nil => simp [sortByLe]
  | cons a as ih => simp [sortByLe, mem_insertLe, ih, List.mem_cons]

lemma pairwise_insertLe {le : Models.Task → Models.Task → Bool}
    (htrans : ∀ a b c, le a b = true → le b c = true → le a c = true)
    (htot : ∀ a b, le a b = true ∨ le b a = true) (a : Models.Task)
    {l : List Models.Task} (h : l.Pairwise (fun x y => le x y = true)) :
    (insertLe le a l).Pairwise (fun x y => le x y = true) := by
  induction l with
  | nil => simp [insertLe]
  | cons b bs ih =>
    simp only [insertLe]
    rcases List.pairwise_cons.mp h with ⟨hb, hbs⟩
    split
    · rename_i hab
      refine List.pairwise_cons.mpr ⟨?_, h⟩
      intro x hx
      rcases List.mem_cons.mp hx with rfl | hxbs
      · exact hab
      · exact htrans a b x hab (hb x hxbs)
    · rename_i hab
      refine List.pairwise_cons.mpr ⟨?_, ih hbs⟩
      intro x hx
      rcases mem_insertLe.mp hx with rfl | hxbs
      · rcases htot b x with hbx | hxb
        · exact hbx
        · exact absurd hxb hab
      · exact hb x hxbs

lemma pairwise_sortByLe {le : Models.Task → Models.Task → Bool}
    (htrans : ∀ a b c, le a b = true → le b c = true → le a c = true)
    (htot : ∀ a b, le a b = true ∨ le b a = true) (l : List Models.Task) :
    (sortByLe le l).Pairwise (fun x y => le x y = true) := by
  induction l with
  | nil => simp [sortByLe]
  | cons a as ih => exact pairwise_insertLe htrans htot a ih

/-- Every task of the returned page belongs to the filtered set. -/
lemma mem_page {db : Store} {uid : Nat} {p : QueryParams} {u : Models.Task}
    (h : u ∈ (get_tasks db uid p).1) : u ∈ filteredTasks db uid p := by
  simp only [get_tasks] at h
  have hsub :
      ((sortByLe (taskLe p.sort p.sort_direction) (filteredTasks db uid p)).drop
          ((p.page - 1) * p.limit)).take p.limit
        |>.Sublist (sortByLe (taskLe p.sort p.sort_direction) (filteredTasks db uid p)) :=
    (List.take_sublist _ _).trans (List.drop_sublist _ _)
  exact mem_sortByLe.mp (hsub.mem h)

lemma mem_commitTask {cur : Store} {tid uid : Nat} {t' u : Models.Task}
    (h : u ∈ commitTask cur tid uid t') : u ∈ cur ∨ u = t' := by
  induction cur with
  | nil => simp [commitTask] at h
  | cons a rest ih =>
    simp only [commitTask] at h
    split at h
    · rcases List.mem_cons.mp h with rfl | hr
      · exact Or.inr rfl
      · exact Or.inl (List.mem_cons_of_mem a hr)
    · rcases List.mem_cons.mp h with rfl | hr
      · exact Or.inl (List.mem_cons_self _ _)
      · rcases ih hr with hc | rfl
        · exact Or.inl (List.mem_cons_of_mem a hc)
        · exact Or.inr rfl

lemma mem_removeFirst {cur : Store} {tid uid : Nat} {u : Models.Task}
    (h : u ∈ removeFirst cur tid uid) : u ∈ cur := by
  induction cur with
  | nil => simp [removeFirst] at h
  | cons a rest ih =>
    simp only [removeFirst] at h
    split at h
    · exact List.mem_cons_of_mem a h
    · rcases List.mem_cons.mp h with rfl | hr
      · exact List.mem_cons_self _ _
      · exact List.mem_cons_of_mem a (ih hr)

/-- An id that does not resolve keeps not resolving after an in-session
row replacement that preserves `id` and `user_id`. -/
lemma none_step_commit {cur : Store} {uid tid x : Nat} {t t' : Models.Task}
    (hres : get_task_by_id cur uid tid = some t)
    (hid : t'.id = t.id) (huser : t'.user_id = t.user_id)
    (h : get_task_by_id cur uid x = none) :
    get_task_by_id (commitTask cur tid uid t') uid x = none := by
  simp only [get_task_by_id, List.find?_eq_none] at h ⊢
  intro u hu
  rcases mem_commitTask hu with hc | rfl
  · exact h u hc
  · have := h t (List.mem_of_find?_eq_some hres)
    rw [hid, huser]
    exact this

/-- An id that does not resolve keeps not resolving after an in-session
row deletion. -/
lemma none_step_remove {cur : Store} {uid tid x : Nat}
    (h : get_task_by_id cur uid x = none) :
    get_task_by_id (removeFirst cur tid uid) uid x = none := by
  simp only [get_task_by_id, List.find?_eq_none] at h ⊢
  intro u hu
  exact h u (mem_removeFirst hu)

end TaskService

namespace TaskService

/-- If some id of the list does not resolve against the pre-call store,
the `bulk_delete` loop raises not-found and rolls back to that store. -/
lemma bulk_delete_go_fail (db : Store) (uid : Nat) (ids : List Nat) :
    ∀ (cur : Store) (n : Nat),
      (∀ x, get_task_by_id db uid x = none → get_task_by_id cur uid x = none) →
      (∃ tid ∈ ids, get_task_by_id db uid tid = none) →
      ∃ e, bulk_delete_go db uid cur ids n = (db, .error (.notFound e)) := by
  induction ids with
  | nil => intro cur n hinv h; simp at h
  | cons tid rest ih =>
    intro cur n hinv h
    cases hres : get_task_by_id cur uid tid with
    | none => exact ⟨tid, by simp [bulk_delete_go, hres]⟩
    | some t =>
      obtain ⟨x, hx, hnone⟩ := h
      have hxrest : x ∈ rest := by
        rcases List.mem_cons.mp hx with rfl | hxr
        · rw [hinv x hnone] at hres; exact absurd hres (by simp)
        · exact hxr
      have hinv' : ∀ y, get_task_by_id db uid y = none →
          get_task_by_id (removeFirst cur tid uid) uid y = none :=
        fun y hy => none_step_remove (hinv y hy)
      obtain ⟨e, he⟩ := ih (removeFirst cur tid uid) (n + 1) hinv' ⟨x, hxrest, hnone⟩
      exact ⟨e, by simp [bulk_delete_go, hres, he]⟩

/-- Same failure shape for the `bulk_complete` loop. -/
lemma bulk_complete_go_fail (db : Store) (uid : Nat) (now : Int) (ids : List Nat) :
    ∀ (cur : Store) (n : Nat),
      (∀ x, get_task_by_id db uid x = none → get_task_by_id cur uid x = none) →
      (∃ tid ∈ ids, get_task_by_id db uid tid = none) →
      ∃ e, bulk_complete_go db uid now cur ids n = (db, .error (.notFound e)) := by
  induction ids with
  | nil => intro cur n hinv h; simp at h
  | cons tid rest ih =>
    intro cur n hinv h
    cases hres : get_task_by_id cur uid tid with
    | none => exact ⟨tid, by simp [bulk_complete_go, hres]⟩
    | some t =>
      obtain ⟨x, hx, hnone⟩ := h
      have hxrest : x ∈ rest := by
        rcases List.mem_cons.mp hx with rfl | hxr
        · rw [hinv x hnone] at hres; exact absurd hres (by simp)
        · exact hxr
      have hinv' : ∀ y, get_task_by_id db uid y = none →
          get_task_by_id
            (commitTask cur tid uid { t with completed := true, updated_at := now })
            uid y = none :=
        fun y hy => none_step_commit hres rfl rfl (hinv y hy)
      obtain ⟨e, he⟩ := ih _ (n + 1) hinv' ⟨x, hxrest, hnone⟩
      exact ⟨e, by simp [bulk_complete_go, hres, he]⟩

/-- Same failure shape for the `bulk_pending` loop. -/
lemma bulk_pending_go_fail (db : Store) (uid : Nat) (now : Int) (ids : List Nat) :
    ∀ (cur : Store) (n : Nat),
      (∀ x, get_task_by_id db uid x = none → get_task_by_id cur uid x = none) →
      (∃ tid ∈ ids, get_task_by_id db uid tid = none) →
      ∃ e, bulk_pending_go db uid now cur ids n = (db, .error (.notFound e)) := by
  induction ids with
  | nil => intro cur n hinv h; simp at h
  | cons tid rest ih =>
    intro cur n hinv h
    cases hres : get_task_by_id cur uid tid with
    | none => exact ⟨tid, by simp [bulk_pending_go, hres]⟩
    | some t =>
      obtain ⟨x, hx, hnone⟩ := h
      have hxrest : x ∈ rest := by
        rcases List.mem_cons.mp hx with rfl | hxr
        · rw [hinv x hnone] at hres; exact absurd hres (by simp)
        · exact hxr
      have hinv' : ∀ y, get_task_by_id db uid y = none →
          get_task_by_id
            (commitTask cur tid uid { t with completed := false, updated_at := now })
            uid y = none :=
        fun y hy => none_step_commit hres rfl rfl (hinv y hy)
      obtain ⟨e, he⟩ := ih _ (n + 1) hinv' ⟨x, hxrest, hnone⟩
      exact ⟨e, by simp [bulk_pending_go, hres, he]⟩

/-- Same failure shape for the `bulk_priority_change` loop. -/
lemma bulk_priority_go_fail (db : Store) (uid : Nat) (prio : String) (now : Int)
    (ids : List Nat) :
    ∀ (cur : Store) (n : Nat),
      (∀ x, get_task_by_id db uid x = none → get_task_by_id cur uid x = none) →
      (∃ tid ∈ ids, get_task_by_id db uid tid = none) →
      ∃ e, bulk_priority_go db uid prio now cur ids n = (db, .error (.notFound e)) := by
  induction ids with
  | nil => intro cur n hinv h; simp at h
  | cons tid rest ih =>
    intro cur n hinv h
    cases hres : get_task_by_id cur uid tid with
    | none => exact ⟨tid, by simp [bulk_priority_go, hres]⟩
    | some t =>
      obtain ⟨x, hx, hnone⟩ := h
      have hxrest : x ∈ rest := by
        rcases List.mem_cons.mp hx with rfl | hxr
        · rw [hinv x hnone] at hres; exact absurd hres (by simp)
        · exact hxr
      have hinv' : ∀ y, get_task_by_id db uid y = none →
          get_task_by_id
            (commitTask cur tid uid { t with priority := prio, updated_at := now })
            uid y = none :=
        fun y hy => none_step_commit hres rfl rfl (hinv y hy)
      obtain ⟨e, he⟩ := ih _ (n + 1) hinv' ⟨x, hxrest, hnone⟩
      exact ⟨e, by simp [bulk_priority_go, hres, he]⟩

end TaskService

lemma countP_add_countP_not {α : Type} (l : List α) (p : α → Bool) :
    l.countP p + l.countP (fun a => !p a) = l.length := by
  induction l with
  | nil => rfl
  | cons a as ih => cases hpa : p a <;> simp [List.countP_cons, hpa] <;> omega

namespace TaskService

/-- Decompose a successful ownership lookup: the store splits around the
first matching row, and commit/delete touch exactly that row. -/
lemma get_task_by_id_decomp {db : Store} {uid tid : Nat} {t : Models.Task}
    (h : get_task_by_id db uid tid = some t) :
    ∃ pre post, db = pre ++ t :: post ∧
      (∀ u ∈ pre, ¬((u.id == tid && u.user_id == uid) = true)) ∧
      (t.id == tid && t.user_id == uid) = true ∧
      (∀ t', commitTask db tid uid t' = pre ++ t' :: post) ∧
      removeFirst db tid uid = pre ++ post := by
  induction db with
  | nil => simp [get_task_by_id] at h
  | cons a rest ih =>
    cases hpa : (a.id == tid && a.user_id == uid) with
    | true =>
      have ha : a = t := by
        simp only [get_task_by_id, List.find?_cons] at h
        rw [hpa] at h
        simpa using h
      subst ha
      exact ⟨[], rest, rfl, by simp, hpa,
        fun t' => by simp [commitTask, hpa], by simp [removeFirst, hpa]⟩
    | false =>
      have hrest : get_task_by_id rest uid tid = some t := by
        simp only [get_task_by_id, List.find?_cons] at h
        rw [hpa] at h
        exact h
      obtain ⟨pre, post, hdb, hpre, hpred, hcommit, hremove⟩ := ih hrest
      refine ⟨a :: pre, post, by simp [hdb], ?_, hpred, ?_, ?_⟩
      · intro u hu
        rcases List.mem_cons.mp hu with rfl | hup
        · simp [hpa]
        · exact hpre u hup
      · intro t'
        simp only [commitTask]
        rw [if_neg (by simp [hpa]), hcommit t']
        simp
      · simp only [removeFirst]
        rw [if_neg (by simp [hpa]), hremove]
        simp

/-- Filtering down to one owner is idempotent. -/
lemma filter_user_idem (db : Store) (uid : Nat) :
    (db.filter (fun t => t.user_id == uid)).filter (fun t => t.user_id == uid)
      = db.filter (fun t => t.user_id == uid) := by
  apply List.filter_eq_self.mpr
  intro u hu
  exact (List.mem_filter.mp hu).2

/-- A status whose lower-case form is neither `pending` nor `completed`
adds no clause at all. -/
lemma statusFilter_other {st : String} (h1 : pyLower st ≠ "pending")
    (h2 : pyLower st ≠ "completed") : statusFilter (some st) = fun _ => true := by
  funext t
  have hb1 : (pyLower st == "pending") = false := by
    rw [beq_eq_false_iff_ne]; exact h1
  have hb2 : (pyLower st == "completed") = false := by
    rw [beq_eq_false_iff_ne]; exact h2
  simp only [statusFilter, hb1, hb2]
  simp

/-- Replacing one status argument by another with the same filter function
leaves the whole query unchanged. -/
lemma get_tasks_status_eq (db : Store) (uid : Nat) (p : QueryParams)
    (s₁ s₂ : Option String) (h : statusFilter s₁ = statusFilter s₂) :
    get_tasks db uid { p with status := s₁ } =
      get_tasks db uid { p with status := s₂ } := by
  simp only [get_tasks, filteredTasks]
  rw [h]

/-- The conjoined per-tag clauses hold exactly when the task's tag list
contains every stripped non-empty entry of the filter string. -/
lemma tagsFilter_iff {ts : String} {t : Models.Task} :
    tagsFilter (some ts) t = true ↔
      ∀ tag ∈ filterTagList ts, t.tags.contains tag = true := by
  simp only [tagsFilter, filterTagList, List.all_eq_true, List.mem_filter,
    List.mem_map]
  constructor
  · rintro h tag ⟨⟨raw, hraw, rfl⟩, hne⟩
    have hd : pyStrip raw = "" ∨ t.tags.contains (pyStrip raw) = true := by
      simpa using h raw hraw
    rcases hd with he | hc
    · exact absurd he (by simpa using hne)
    · exact hc
  · intro h raw hraw
    by_cases he : pyStrip raw = ""
    · simp [he]
    · have hc := h (pyStrip raw) ⟨⟨raw, hraw, rfl⟩, by simpa using he⟩
      rw [hc]
      simp

end TaskService

/-! ## Claim theorems -/

open TaskService ImportService

/-- C1 counterexample: owner 7's only task is tagged `work`, which is one
of the tags in the filter `"work,home"`, and it passes every other filter
(the unfiltered query returns it), yet the query with that tags filter
returns nothing — so "contains **any** tag of the list" (OR semantics)
does not hold of the code. -/
theorem C1_counterexample :
    (get_tasks c1db 7 { tags := some "work,home" }).1 = [] ∧
    (get_tasks c1db 7 { tags := some "work,home" }).2 = 0 ∧
    (get_tasks c1db 7 {}).1 = [c1task] ∧
    c1task.tags.contains "work" = true ∧
    "work" ∈ filterTagList "work,home" := by
  decide

/-- C1 amended: a task is in the filtered set of `get_tasks` with a tags
filter iff it passes all the other filters and its tag list contains
**every** stripped non-empty tag of the comma-separated filter (AND
semantics); the returned page only ever contains members of that filtered
set. -/
theorem C1_tags_filter_and_semantics (db : Store) (uid : Nat)
    (p : QueryParams) (ts : String) (t : Models.Task) :
    (t ∈ filteredTasks db uid { p with tags := some ts } ↔
      (t ∈ filteredTasks db uid { p with tags := none } ∧
        ∀ tag ∈ filterTagList ts, t.tags.contains tag = true)) ∧
    (∀ u ∈ (get_tasks db uid { p with tags := some ts }).1,
      u ∈ filteredTasks db uid { p with tags := some ts }) := by
  constructor
  · have hnone : tagsFilter none t = true := rfl
    simp only [filteredTasks, List.mem_filter, Bool.and_eq_true, tagsFilter_iff,
      hnone]
    tauto
  · intro u hu
    exact mem_page hu

/-- C1 witness: the single-tag filter `"work"` does return the task. -/
theorem C1_tags_filter_witness :
    c1task ∈ filteredTasks c1db 7 { tags := some "work" } :=
  (C1_tags_filter_and_semantics c1db 7 {} "work" c1task).2 c1task (by decide)

/-- C4 counterexample: on the owner-7 set with priorities
`[high, medium, low, high]`, the priority sort with `sort_direction="desc"`
returns `[low, medium, high, high]` — descending rank puts rank 3 (low)
first — not the claimed `[high, high, medium, low]`. -/
theorem C4_counterexample :
    (get_tasks c4db 7
        { sort := some "priority", sort_direction := some "desc" }).1.map
      Models.Task.priority = ["low", "medium", "high", "high"] ∧
    (get_tasks c4db 7
        { sort := some "priority", sort_direction := some "desc" }).1.map
      Models.Task.priority ≠ ["high", "high", "medium", "low"] := by
  decide

lemma taskLe_prio_asc : taskLe (some "priority") (some "asc") =
    fun a b => decide (priorityRank a.priority ≤ priorityRank b.priority) := rfl

lemma taskLe_prio_desc : taskLe (some "priority") (some "desc") =
    fun a b => decide (priorityRank b.priority ≤ priorityRank a.priority) := rfl

/-- C4 amended: the priority sort orders by the fixed rank high=1,
medium=2, low=3 (not lexicographically) — every page returned under
`sort="priority"` is rank-ordered in the requested direction — and on the
`[high, medium, low, high]` set, `asc` returns `[high, high, medium, low]`
while `desc` returns `[low, medium, high, high]`. -/
theorem C4_priority_sort_rank (db : Store) (uid : Nat) :
    (∀ p : QueryParams, p.sort = some "priority" →
      p.sort_direction = some "asc" →
      (get_tasks db uid p).1.Pairwise
        (fun x y => priorityRank x.priority ≤ priorityRank y.priority)) ∧
    (∀ p : QueryParams, p.sort = some "priority" →
      p.sort_direction = some "desc" →
      (get_tasks db uid p).1.Pairwise
        (fun x y => priorityRank y.priority ≤ priorityRank x.priority)) ∧
    (get_tasks c4db 7
        { sort := some "priority", sort_direction := some "asc" }).1.map
      Models.Task.priority = ["high", "high", "medium", "low"] ∧
    (get_tasks c4db 7
        { sort := some "priority", sort_direction := some "desc" }).1.map
      Models.Task.priority = ["low", "medium", "high", "high"] := by
  refine ⟨?_, ?_, by decide, by decide⟩
  · intro p hs hd
    simp only [get_tasks, hs, hd, taskLe_prio_asc]
    refine List.Pairwise.sublist
      ((List.take_sublist _ _).trans (List.drop_sublist _ _)) ?_
    refine (pairwise_sortByLe ?_ ?_ _).imp (fun hab => by simpa using hab)
    · intro a b c hab hbc
      simp only [decide_eq_true_iff] at hab hbc ⊢
      exact le_trans hab hbc
    · intro a b
      simp only [decide_eq_true_iff]
      exact Nat.le_total _ _
  · intro p hs hd
    simp only [get_tasks, hs, hd, taskLe_prio_desc]
    refine List.Pairwise.sublist
      ((List.take_sublist _ _).trans (List.drop_sublist _ _)) ?_
    refine (pairwise_sortByLe ?_ ?_ _).imp (fun hab => by simpa using hab)
    · intro a b c hab hbc
      simp only [decide_eq_true_iff] at hab hbc ⊢
      exact le_trans hbc hab
    · intro a b
      simp only [decide_eq_true_iff]
      exact Nat.le_total _ _

/-- C4 witness: the ascending-rank guarantee applied to the concrete
owner-7 store. -/
theorem C4_priority_sort_witness :
    (get_tasks c4db 7
        { sort := some "priority", sort_direction := some "asc" }).1.Pairwise
      (fun x y => priorityRank x.priority ≤ priorityRank y.priority) :=
  (C4_priority_sort_rank c4db 7).1
    { sort := some "priority", sort_direction := some "asc" } rfl rfl

/-- C5 counterexample: the task service itself happily creates a task with
11 tags and updates a task to a 51-character tag — no ValidationError is
raised by the mutation engine for out-of-bounds tags. -/
theorem C5_counterexample :
    bigTags.length = 11 ∧
    (create_task [] 7 "t" none "medium" none (some bigTags) 0 1).isOk = true ∧
    longTag.length = 51 ∧
    (update_task [c1task] 7 1 none none none none (some [longTag]) none 5).isOk
      = true ∧
    (CreateTaskRequest.validate_tags bigTags).isOk = false := by
  decide

/-- C5 amended: the 10-entry/50-character tag bounds are enforced by the
request schemas, not by the service: `CreateTaskRequest.validate_tags` and
`UpdateTaskRequest.validate_tags` succeed exactly on in-bounds tag lists
(raising ValidationError otherwise, so such a request never reaches the
service), while `create_task` and `update_task` accept any tags list
unchanged. -/
theorem C5_tags_validated_in_schema :
    (∀ tags : List String, (CreateTaskRequest.validate_tags tags).isOk = true ↔
      (tags.length ≤ 10 ∧ ∀ tag ∈ tags, tag.length ≤ 50)) ∧
    (∀ tags : List String,
      (UpdateTaskRequest.validate_tags (some tags)).isOk = true ↔
      (tags.length ≤ 10 ∧ ∀ tag ∈ tags, tag.length ≤ 50)) ∧
    (∀ (db : Store) (uid : Nat) (tags : List String) (now : Int) (newId : Nat),
      ∃ task store,
        create_task db uid "t" none "medium" none (some tags) now newId =
          .ok (task, store) ∧ task.tags = tags) ∧
    (∀ (db : Store) (uid tid : Nat) (tags : List String) (now : Int)
        (t : Models.Task), get_task_by_id db uid tid = some t →
      ∃ task store,
        update_task db uid tid none none none none (some tags) none now =
          .ok (some task, store) ∧ task.tags = tags) := by
  refine ⟨?_, ?_, ?_, ?_⟩
  · intro tags
    simp only [CreateTaskRequest.validate_tags]
    by_cases h10 : 10 < tags.length
    · rw [if_pos h10]
      refine iff_of_false (by decide) ?_
      rintro ⟨hle, -⟩; omega
    · rw [if_neg h10]
      cases hf : tags.find? (fun tag => 50 < tag.length) with
      | some tag =>
        refine iff_of_false (by simp [Except.isOk, Except.toBool]) ?_
        rintro ⟨-, hall⟩
        have hmem := List.mem_of_find?_eq_some hf
        have hlen : 50 < tag.length := by simpa using List.find?_some hf
        exact absurd (hall tag hmem) (by omega)
      | none =>
        refine iff_of_true rfl ⟨by omega, ?_⟩
        intro tag hmem
        have := List.find?_eq_none.mp hf tag hmem
        simpa using this
  · intro tags
    simp only [UpdateTaskRequest.validate_tags]
    by_cases h10 : 10 < tags.length
    · rw [if_pos h10]
      refine iff_of_false (by decide) ?_
      rintro ⟨hle, -⟩; omega
    · rw [if_neg h10]
      cases hf : tags.find? (fun tag => 50 < tag.length) with
      | some tag =>
        refine iff_of_false (by simp [Except.isOk, Except.toBool]) ?_
        rintro ⟨-, hall⟩
        have hmem := List.mem_of_find?_eq_some hf
        have hlen : 50 < tag.length := by simpa using List.find?_some hf
        exact absurd (hall tag hmem) (by omega)
      | none =>
        refine iff_of_true rfl ⟨by omega, ?_⟩
        intro tag hmem
        have := List.find?_eq_none.mp hf tag hmem
        simpa using this
  · intro db uid tags now newId
    exact ⟨_, _, rfl, rfl⟩
  · intro db uid tid tags now t h
    refine ⟨{ t with tags := tags, updated_at := now },
      commitTask db tid uid { t with tags := tags, updated_at := now },
      ?_, rfl⟩
    simp only [update_task, h, update_task_desc, update_task_prio,
      update_task_due, update_task_rest]

/-- C5 witness: ten short tags pass the create schema, and the service
accepts an arbitrary update on the demo store. -/
theorem C5_tags_validated_witness :
    (CreateTaskRequest.validate_tags ["a"]).isOk = true ∧
    ∃ task store,
      update_task c1db 7 1 none none none none (some ["x"]) none 5 =
        .ok (some task, store) ∧ task.tags = ["x"] :=
  ⟨((C5_tags_validated_in_schema.1 ["a"]).mpr (by decide)),
    C5_tags_validated_in_schema.2.2.2 c1db 7 1 ["x"] 5 c1task (by decide)⟩

/-- C8 counterexample: an otherwise valid record whose `completed` value is
the string `"yes"` — one of the forms the claim says is always accepted —
is rejected by `validate_imported_task`, as is the casing `"TRUE"`, even
though the coercion `_parse_boolean` itself maps `"yes"` to `True`. -/
theorem C8_counterexample :
    (validate_imported_task (fun _ => true)
      { title := "t", completed := .str "yes" }).1 = false ∧
    (validate_imported_task (fun _ => true)
      { title := "t", completed := .str "TRUE" }).1 = false ∧
    parse_boolean (.str "yes") = true := by
  decide

/-- C8 amended: import validation accepts a `completed` value exactly when
it is a native boolean (or absent, defaulting to `False`) or one of the
six exact strings `true/false/True/False/1/0` — `yes`/`no` and any other
casing are rejected — while the coercion `_parse_boolean` lower-cases its
argument and maps `true/1/yes` to `True` and everything else to `False`. -/
theorem C8_completed_validation (pk : String → Bool) (s : String) (b : Bool) :
    (validate_imported_task pk { title := "t", completed := .bool b }).1
      = true ∧
    (validate_imported_task pk { title := "t", completed := .missing }).1
      = true ∧
    (validate_imported_task pk { title := "t", completed := .str s }).1
      = ["true", "false", "True", "False", "1", "0"].contains s ∧
    parse_boolean (.bool b) = b ∧
    (parse_boolean (.str s) = true ↔ pyLower s ∈ ["true", "1", "yes"]) := by
  refine ⟨rfl, rfl, ?_, rfl, ?_⟩
  · show (validate_completed { title := "t", completed := .str s }).1 = _
    simp only [validate_completed]
    cases hc : ["true", "false", "True", "False", "1", "0"].contains s <;>
      simp [hc]
  · show (["true", "1", "yes"].contains (pyLower s)) = true ↔ _
    exact List.elem_iff

/-- C2: any bulk operation (delete, complete, pending, priority-change)
given a list containing an id that does not resolve for the caller raises
not-found and returns the exact pre-call store — no task of the caller,
including those named by the valid ids of the list, is modified. -/
theorem C2_bulk_atomicity (db : Store) (uid : Nat) (ids : List Nat)
    (now : Int) (prio : String) (hprio : prio ∈ ["low", "medium", "high"])
    (h : ∃ tid ∈ ids, get_task_by_id db uid tid = none) :
    (∃ e, bulk_delete db uid ids = (db, .error (.notFound e))) ∧
    (∃ e, bulk_complete db uid ids now = (db, .error (.notFound e))) ∧
    (∃ e, bulk_pending db uid ids now = (db, .error (.notFound e))) ∧
    (∃ e, bulk_priority_change db uid ids prio now =
      (db, .error (.notFound e))) := by
  have hinv : ∀ x, get_task_by_id db uid x = none →
      get_task_by_id db uid x = none := fun _ hx => hx
  refine ⟨bulk_delete_go_fail db uid ids db 0 hinv h,
    bulk_complete_go_fail db uid now ids db 0 hinv h,
    bulk_pending_go_fail db uid now ids db 0 hinv h, ?_⟩
  have hc : (["low", "medium", "high"].contains prio) = true :=
    List.elem_iff.mpr hprio
  obtain ⟨e, he⟩ := bulk_priority_go_fail db uid prio now ids db 0 hinv h
  refine ⟨e, ?_⟩
  simp only [bulk_priority_change, hc]
  simpa using he

/-- C2 witness: deleting `[1, 999999]` for owner 7, where task 1 exists and
999999 does not, fails and leaves the one-task store untouched. -/
theorem C2_bulk_atomicity_witness :
    ∃ e, bulk_delete c1db 7 [1, 999999] = (c1db, .error (.notFound e)) :=
  (C2_bulk_atomicity c1db 7 [1, 999999] 0 "high" (by decide)
    ⟨999999, by decide, by decide⟩).1

/-- C3: strict owner isolation.  For owners `a ≠ b` and a task `t` of `a`
(with a store-unique id), every single-task operation issued by `b`
against `t.id` returns not-found/False/None and leaves the store exactly
as it was, every bulk call by `b` whose list mentions `t.id` fails with
not-found and an unchanged store, `b`'s statistics are computed from
`b`-owned rows only, and `b`'s query pages contain only `b`-owned tasks
and never `t`. -/
theorem C3_owner_isolation (db : Store) (a b : Nat) (t : Models.Task)
    (hab : a ≠ b) (ht : t ∈ db) (hta : t.user_id = a)
    (huniq : ∀ u ∈ db, u.id = t.id → u = t)
    (now : Int) (c : Bool) (prio : String)
    (hprio : prio ∈ ["low", "medium", "high"])
    (title descr pr : Option String) (dd : Option Int)
    (tg : Option (List String)) (cmp : Option Bool) :
    get_task_by_id db b t.id = none ∧
    update_task db b t.id title descr pr dd tg cmp now = .ok (none, db) ∧
    delete_task db b t.id = (false, db) ∧
    toggle_complete db b t.id c now = (none, db) ∧
    (∀ ids : List Nat, t.id ∈ ids →
      (∃ e, bulk_delete db b ids = (db, .error (.notFound e))) ∧
      (∃ e, bulk_complete db b ids now = (db, .error (.notFound e))) ∧
      (∃ e, bulk_pending db b ids now = (db, .error (.notFound e))) ∧
      (∃ e, bulk_priority_change db b ids prio now =
        (db, .error (.notFound e)))) ∧
    get_statistics db b now =
      get_statistics (db.filter (fun u => u.user_id == b)) b now ∧
    t ∉ db.filter (fun u => u.user_id == b) ∧
    (∀ p : QueryParams, ∀ u ∈ (get_tasks db b p).1, u.user_id = b ∧ u ≠ t) := by
  have hnone : get_task_by_id db b t.id = none := by
    simp only [get_task_by_id, List.find?_eq_none]
    intro u hu hcon
    simp only [Bool.and_eq_true] at hcon
    have hut : u = t := huniq u hu (by simpa using hcon.1)
    subst hut
    have h4 : u.user_id = b := by simpa using hcon.2
    exact hab (by rw [← hta, h4])
  refine ⟨hnone, ?_, ?_, ?_, ?_, ?_, ?_, ?_⟩
  · simp [update_task, hnone]
  · simp [delete_task, hnone]
  · simp [toggle_complete, hnone]
  · intro ids hid
    have hx : ∃ tid ∈ ids, get_task_by_id db b tid = none := ⟨t.id, hid, hnone⟩
    have hinv : ∀ x, get_task_by_id db b x = none →
        get_task_by_id db b x = none := fun _ hy => hy
    refine ⟨bulk_delete_go_fail db b ids db 0 hinv hx,
      bulk_complete_go_fail db b now ids db 0 hinv hx,
      bulk_pending_go_fail db b now ids db 0 hinv hx, ?_⟩
    have hc : (["low", "medium", "high"].contains prio) = true :=
      List.elem_iff.mpr hprio
    obtain ⟨e, he⟩ := bulk_priority_go_fail db b prio now ids db 0 hinv hx
    refine ⟨e, ?_⟩
    simp only [bulk_priority_change, hc]
    simpa using he
  · simp only [get_statistics, filter_user_idem]
  · intro hcon
    have h2 := (List.mem_filter.mp hcon).2
    have h3 : t.user_id = b := by simpa using h2
    exact hab (by rw [← hta, h3])
  · intro p u hu
    have hmem := mem_page hu
    have hpred := (List.mem_filter.mp hmem).2
    simp only [Bool.and_eq_true] at hpred
    have huser : u.user_id = b := by simpa using hpred.1.1.1.1.1
    refine ⟨huser, ?_⟩
    rintro rfl
    exact hab (by rw [← hta, huser])

/-- C3 witness: owner 2 cannot see or delete owner 1's task. -/
theorem C3_owner_isolation_witness :
    get_task_by_id demoDb 2 (mkDemoTask 1 1 "high" [] false none).id = none ∧
    delete_task demoDb 2 (mkDemoTask 1 1 "high" [] false none).id =
      (false, demoDb) := by
  have h := C3_owner_isolation demoDb 1 2 (mkDemoTask 1 1 "high" [] false none)
    (by decide) (by decide) rfl (by decide) 0 true "high" (by decide)
    none none none none none none
  exact ⟨h.1, h.2.2.1⟩

/-- C6: `total_count` is computed over the filtered set before pagination;
re-querying with the same filters, `page=1` and `limit=total_count`
returns exactly `total_count` tasks; and the returned page is the
`(page-1)*limit` offset window of size `limit` of the ordered filtered
set. -/
theorem C6_count_before_pagination (db : Store) (uid : Nat) (p : QueryParams)
    (hpage : 1 ≤ p.page) (hlim : 1 ≤ p.limit ∧ p.limit ≤ 100) :
    (get_tasks db uid p).2 = (filteredTasks db uid p).length ∧
    (get_tasks db uid
        { p with page := 1, limit := (get_tasks db uid p).2 }).1.length =
      (get_tasks db uid p).2 ∧
    (get_tasks db uid p).1 =
      ((sortByLe (taskLe p.sort p.sort_direction)
          (filteredTasks db uid p)).drop ((p.page - 1) * p.limit)).take
        p.limit := by
  refine ⟨rfl, ?_, rfl⟩
  show (List.take ((get_tasks db uid p).2)
      ((sortByLe (taskLe p.sort p.sort_direction)
        (filteredTasks db uid p)).drop
          ((1 - 1) * (get_tasks db uid p).2))).length =
    (get_tasks db uid p).2
  rw [show (1 - 1) * ((get_tasks db uid p).2) = 0 from Nat.zero_mul _,
    List.drop_zero,
    show (get_tasks db uid p).2 = (filteredTasks db uid p).length from rfl,
    ← length_sortByLe (taskLe p.sort p.sort_direction) (filteredTasks db uid p),
    List.take_length]

/-- C6 witness: the guarantee applied to the concrete owner-7 store with
default paging. -/
theorem C6_count_witness :
    (get_tasks c4db 7
        { page := 1, limit := (get_tasks c4db 7 {}).2 }).1.length =
      (get_tasks c4db 7 {}).2 :=
  (C6_count_before_pagination c4db 7 {} (by decide) ⟨by decide, by decide⟩).2.1

/-- C7: statistics satisfy `completed + pending = total` and
`overdue ≤ pending`; `overdue` counts exactly the not-completed tasks with
a due date strictly before the evaluation time; and an owner with no tasks
gets all four values 0 rather than an error. -/
theorem C7_statistics_identities (db : Store) (uid : Nat) (now : Int) :
    (get_statistics db uid now).completed + (get_statistics db uid now).pending
        = (get_statistics db uid now).total ∧
    (get_statistics db uid now).overdue ≤ (get_statistics db uid now).pending ∧
    (get_statistics db uid now).overdue =
      (db.filter (fun t => t.user_id == uid)).countP (fun t =>
        (match t.due_date with
         | some d => decide (d < now)
         | none => false) && !t.completed) ∧
    (db.filter (fun t => t.user_id == uid) = [] →
      get_statistics db uid now = ⟨0, 0, 0, 0⟩) := by
  refine ⟨?_, ?_, rfl, ?_⟩
  · show (db.filter (fun t => t.user_id == uid)).countP (fun t => t.completed) +
        ((db.filter (fun t => t.user_id == uid)).length -
          (db.filter (fun t => t.user_id == uid)).countP
            (fun t => t.completed)) =
      (db.filter (fun t => t.user_id == uid)).length
    have := List.countP_le_length (fun t => t.completed)
      (l := db.filter (fun t => t.user_id == uid))
    omega
  · show (db.filter (fun t => t.user_id == uid)).countP (fun t =>
        (match t.due_date with
         | some d => decide (d < now)
         | none => false) && !t.completed) ≤
      (db.filter (fun t => t.user_id == uid)).length -
        (db.filter (fun t => t.user_id == uid)).countP (fun t => t.completed)
    have hcompl := countP_add_countP_not
      (db.filter (fun t => t.user_id == uid)) (fun t => t.completed)
    have hmono : (db.filter (fun t => t.user_id == uid)).countP (fun t =>
        (match t.due_date with
         | some d => decide (d < now)
         | none => false) && !t.completed) ≤
        (db.filter (fun t => t.user_id == uid)).countP
          (fun t => !t.completed) := by
      apply List.countP_mono_left
      intro x hx hx2
      simp only [Bool.and_eq_true] at hx2
      exact hx2.2
    omega
  · intro h
    simp [get_statistics, h]

/-- C7 witness: an owner with no tasks gets four zeros. -/
theorem C7_statistics_witness : get_statistics ([] : Store) 7 0 = ⟨0, 0, 0, 0⟩ :=
  (C7_statistics_identities [] 7 0).2.2.2 rfl

/-- C9: a status whose lower-cased value is neither `pending` nor
`completed` (and also an absent status) filters nothing and gives exactly
the `status="all"` result, and the comparison is case-insensitive:
`"PENDING"`/`"Completed"` behave as their lowercase forms. -/
theorem C9_status_fallthrough (db : Store) (uid : Nat) (p : QueryParams)
    (st : String) (h1 : pyLower st ≠ "pending")
    (h2 : pyLower st ≠ "completed") :
    get_tasks db uid { p with status := some st } =
      get_tasks db uid { p with status := some "all" } ∧
    get_tasks db uid { p with status := none } =
      get_tasks db uid { p with status := some "all" } ∧
    get_tasks db uid { p with status := some "PENDING" } =
      get_tasks db uid { p with status := some "pending" } ∧
    get_tasks db uid { p with status := some "Completed" } =
      get_tasks db uid { p with status := some "completed" } :=
  ⟨get_tasks_status_eq db uid p _ _ ((statusFilter_other h1 h2).trans rfl),
    get_tasks_status_eq db uid p _ _ rfl,
    get_tasks_status_eq db uid p _ _ rfl,
    get_tasks_status_eq db uid p _ _ rfl⟩

/-- C9 witness: the fall-through applied to a junk status value on the
demo store. -/
theorem C9_status_witness :
    get_tasks demoDb 1 { ({} : QueryParams) with status := some "xyz" } =
      get_tasks demoDb 1 { ({} : QueryParams) with status := some "all" } :=
  (C9_status_fallthrough demoDb 1 {} "xyz" (by decide) (by decide)).1

/-- C10: the toggle operation runs no validation and cannot raise — on any
owned task it succeeds, flips only the `completed` field (plus the
store-refreshed `updated_at`), and replaces exactly the one matching row:
title, description, priority, due date, tags, owner and id are unchanged,
and every other row of the store (`pre` and `post`) is untouched. -/
theorem C10_toggle_frame (db : Store) (uid tid : Nat) (c : Bool) (now : Int)
    (t : Models.Task) (h : get_task_by_id db uid tid = some t) :
    ∃ t' pre post,
      toggle_complete db uid tid c now = (some t', pre ++ t' :: post) ∧
      db = pre ++ t :: post ∧
      t'.completed = c ∧ t'.title = t.title ∧ t'.description = t.description ∧
      t'.priority = t.priority ∧ t'.due_date = t.due_date ∧
      t'.tags = t.tags ∧ t'.user_id = t.user_id ∧ t'.id = t.id := by
  obtain ⟨pre, post, hdb, hpre, hpred, hcommit, -⟩ := get_task_by_id_decomp h
  refine ⟨{ t with completed := c, updated_at := now }, pre, post, ?_, hdb,
    rfl, rfl, rfl, rfl, rfl, rfl, rfl, rfl⟩
  simp only [toggle_complete, h]
  rw [hcommit]

/-- C10 witness: toggling owner 1's only task to completed. -/
theorem C10_toggle_witness :
    ∃ t' pre post,
      toggle_complete demoDb 1 1 true 9 = (some t', pre ++ t' :: post) ∧
      demoDb = pre ++ mkDemoTask 1 1 "high" [] false none :: post ∧
      t'.completed = true ∧
      t'.title = (mkDemoTask 1 1 "high" [] false none).title ∧
      t'.description = (mkDemoTask 1 1 "high" [] false none).description ∧
      t'.priority = (mkDemoTask 1 1 "high" [] false none).priority ∧
      t'.due_date = (mkDemoTask 1 1 "high" [] false none).due_date ∧
      t'.tags = (mkDemoTask 1 1 "high" [] false none).tags ∧
      t'.user_id = (mkDemoTask 1 1 "high" [] false none).user_id ∧
      t'.id = (mkDemoTask 1 1 "high" [] false none).id :=
  C10_toggle_frame demoDb 1 1 true 9 (mkDemoTask 1 1 "high" [] false none)
    (by decide)
